import Mathlib

/-!
Shallow embedding of the `store` package of the socialdemo backend
(`internal/store/store.go`, `internal/store/profile.go`, data types from
`internal/models/models.go`, board read handler from `internal/httpx/boards.go`),
together with proofs about its decoration, sorting, filtering, like-toggling,
profile-merge and invariant-preservation behaviour.

Modelling conventions:
* Go strings are Lean `String`; Go string comparison (`<`, `>`) is byte-wise
  lexicographic, which for UTF-8 agrees with the code-point order used by the
  Lean/Mathlib `LinearOrder String` instance.
* Go `int` is Lean `Int`.
* A Go `map[string]T` read with a zero-value default is a Lean function
  `String → T` (with `Option T` where presence matters); a Go
  `map[string]struct{}` set is a Lean `Finset String`.
* Go map collections that are iterated (boards, messages) are modelled as
  association lists `List (String × α)`; Go's randomized map iteration order is
  determinized to the list order (every property proved here is independent of
  that order).
* `sort.Slice xs less` is modelled as `List.mergeSort xs le` with
  `le a b := !(less b a)`: any sort with a strict-weak-order `less` produces a
  permutation that is pairwise `¬ less (x_j) (x_i)` for `i < j`, and the
  properties proved here depend only on that post-condition.
* Go slices distinguish `nil` from an empty non-nil slice (observable as JSON
  `null` vs `[]`).  Where that distinction matters (`UserPosts`,
  `ListByAuthors`, `ListByBoard`) the slice is `Option (List α)` with `none`
  for `nil`; `append` always yields a non-nil slice.
-/

namespace SocialDemo

/-- `models.User`. -/
structure User where
  id : String
  name : String
  avatarUrl : Option String
  deriving DecidableEq, Repr

/-- `models.Comment`. -/
structure Comment where
  id : String
  author : User
  text : String
  createdAt : String
  deriving DecidableEq, Repr

/-- `models.Post`. -/
structure Post where
  id : String
  author : User
  text : String
  createdAt : String
  likeCount : Int
  likedByMe : Bool
  comments : List Comment
  tags : List String
  imageUrl : Option String
  boardId : String
  deriving DecidableEq, Repr

/-- `models.Profile`. -/
structure Profile where
  id : String
  name : String
  nickname : Option String
  avatarUrl : Option String
  instagram : Option String
  facebook : Option String
  lineId : Option String
  birthday : String
  showInstagram : Bool
  showFacebook : Bool
  showLine : Bool
  deriving DecidableEq, Repr

/-- `models.Board`. -/
structure Board where
  id : String
  name : String
  description : String
  ownerID : String
  moderatorIDs : List String
  isOfficial : Bool
  isPrivate : Bool
  createdAt : String
  updatedAt : String
  deleted : Bool
  deriving DecidableEq, Repr

/-- `models.Message` (the opaque `contentJson` payload is irrelevant to every
claim and is kept as an uninterpreted string). -/
structure Message where
  id : String
  conversationId : String
  senderId : String
  type : String
  text : String
  contentSchema : String
  contentJson : String
  createdAt : String
  deleted : Bool
  deriving DecidableEq, Repr

/-- The `store.Store` collections (`conversations` carries no claim and is
omitted; no operation modelled here touches it). -/
structure Store where
  posts : List Post
  tags : String → List String
  friends : String → Finset String
  profiles : String → Option Profile
  postLikes : String → Finset String
  boards : List (String × Board)
  messages : List (String × Message)

/-- `store.NewStore()`: all collections empty. -/
def emptyStore : Store where
  posts := []
  tags := fun _ => []
  friends := fun _ => ∅
  profiles := fun _ => none
  postLikes := fun _ => ∅
  boards := []
  messages := []

/-- `Store.DisplayName` (store.go): nickname if present and non-empty, else
name if non-empty, else the raw id.  Factored over the profiles map so that
the same definition serves the by-value and the heap-aware post model. -/
def displayNameOf (profiles : String → Option Profile) (uid : String) : String :=
  match profiles uid with
  | none => uid
  | some p =>
    match p.nickname with
    | some nick => if nick ≠ "" then nick else if p.name ≠ "" then p.name else uid
    | none => if p.name ≠ "" then p.name else uid

def displayName (s : Store) (uid : String) : String :=
  displayNameOf s.profiles uid

/-- The comment loop of `Store.Decorate`: each comment with a non-empty author
id gets its author name resolved from the profiles collection (the loop reads
only the author id of slot `i` and writes only the author name of slot `i`,
so it is a map over the list). -/
def resolveComments (profiles : String → Option Profile) (cs : List Comment) : List Comment :=
  cs.map fun c =>
    if c.author.id ≠ "" then
      { c with author := { c.author with name := displayNameOf profiles c.author.id } }
    else c

/-- `Store.Decorate` (store.go lines 221-244), value-level view: copy the post,
resolve the author display name, resolve every comment author name, and
recompute `likeCount`/`likedByMe` from the like-set for the viewer. -/
def decorate (s : Store) (p : Post) (viewerUID : String) : Post :=
  let cp :=
    if p.author.id ≠ "" then
      { p with author := { p.author with name := displayName s p.author.id } }
    else p
  let cp := { cp with comments := resolveComments s.profiles cp.comments }
  let set := s.postLikes cp.id
  { cp with likeCount := (set.card : Int), likedByMe := decide (viewerUID ∈ set) }

/-- The `less` closure of the `tab == "hot"` branch of `Store.List`:
`less i j` is `createdAt_i > createdAt_j` when the like counts are equal and
`likeCount_i > likeCount_j` otherwise (Go `x > y` is `y < x`). -/
def hotLess (a b : Post) : Bool :=
  if a.likeCount = b.likeCount then decide (b.createdAt < a.createdAt)
  else decide (b.likeCount < a.likeCount)

/-- The `less` closure of the non-"hot" branch of `Store.List` (and of the
`createdAt desc` sorts in `UserPosts` / `ListByAuthors` / `ListByBoard`):
`less i j` is `createdAt_i > createdAt_j`. -/
def createdDescLess (a b : Post) : Bool :=
  decide (b.createdAt < a.createdAt)

/-- `Store.List` (store.go lines 248-286): optional tag filter (incoming tags
trimmed + lower-cased into a set, post tags compared lower-cased), decoration
of every survivor for the viewer, then the tab-dependent sort. -/
def listPosts (s : Store) (tab : String) (tags : List String) (viewerUID : String) :
    List Post :=
  let base :=
    if tags ≠ [] then
      let tagset := tags.map fun t => t.trim.toLower
      s.posts.filter fun p => p.tags.any fun pt => tagset.contains pt.toLower
    else s.posts
  let out := base.map fun p => decorate s p viewerUID
  if tab = "hot" then
    out.mergeSort fun a b => !(hotLess b a)
  else
    out.mergeSort fun a b => !(createdDescLess b a)

/-- The zero value of `models.User`. -/
def defaultUser : User := ⟨"", "", none⟩

/-- The zero value of `models.Post`, returned by `ToggleLike` on a miss. -/
def defaultPost : Post := ⟨"", defaultUser, "", "", 0, false, [], [], none, ""⟩

/-- `Store.Create` (store.go): prepend the post to the global list. -/
def create (s : Store) (p : Post) : Post × Store :=
  (p, { s with posts := p :: s.posts })

/-- The membership flip of `ToggleLike`: remove the user from the like-set if
present, insert otherwise. -/
def toggleSet (set : Finset String) (uid : String) : Finset String :=
  if uid ∈ set then set.erase uid else insert uid set

/-- The write-back of `ToggleLike` onto the stored post: recomputed
`likeCount` and `likedByMe` from the toggled like-set. -/
def togglePostVal (p : Post) (set' : Finset String) (uid : String) : Post :=
  { p with likeCount := (set'.card : Int), likedByMe := decide (uid ∈ set') }

/-- The search-and-replace loop of `Store.ToggleLike`: find the first post
with the given id, flip the user's membership in its like-set, write the
recomputed `likeCount`/`likedByMe` back onto the stored post, and report the
updated post list, post and like-set. -/
def toggleAux (postLikes : String → Finset String) (postID uid : String) :
    List Post → Option (List Post × Post × Finset String)
  | [] => none
  | p :: rest =>
    if p.id = postID then
      let set' := toggleSet (postLikes p.id) uid
      let p' := togglePostVal p set' uid
      some (p' :: rest, p', set')
    else
      match toggleAux postLikes postID uid rest with
      | none => none
      | some (rest', q, st) => some (p :: rest', q, st)

/-- `Store.ToggleLike` (store.go lines 418-447).  On a miss it returns the
zero post, `false` and the unchanged store; on a hit it returns the updated
post, `true`, and the store with the post list and the like-set (keyed by the
matched post's id, which equals `postID`) updated. -/
def toggleLike (s : Store) (postID uid : String) : (Post × Bool) × Store :=
  match toggleAux s.postLikes postID uid s.posts with
  | none => ((defaultPost, false), s)
  | some (posts', p', set') =>
    ((p', true),
     { s with posts := posts', postLikes := Function.update s.postLikes postID set' })

/-- `Store.UpsertProfile` (profile.go lines 16-56): no-op on an empty id;
wholesale insert when absent; otherwise field-level merge where the name
overwrites only when non-empty, each optional pointer field overwrites only
when non-nil, and the three visibility booleans always overwrite. -/
def upsertProfile (s : Store) (p : Profile) : Profile × Store :=
  if p.id = "" then (p, s)
  else
    match s.profiles p.id with
    | none => (p, { s with profiles := Function.update s.profiles p.id (some p) })
    | some ex0 =>
      let ex1 := if p.name ≠ "" then { ex0 with name := p.name } else ex0
      let ex2 := if p.nickname.isSome then { ex1 with nickname := p.nickname } else ex1
      let ex3 := if p.avatarUrl.isSome then { ex2 with avatarUrl := p.avatarUrl } else ex2
      let ex4 := if p.instagram.isSome then { ex3 with instagram := p.instagram } else ex3
      let ex5 := if p.facebook.isSome then { ex4 with facebook := p.facebook } else ex4
      let ex6 := if p.lineId.isSome then { ex5 with lineId := p.lineId } else ex5
      let ex7 := { ex6 with showInstagram := p.showInstagram,
                            showFacebook := p.showFacebook,
                            showLine := p.showLine }
      (ex7, { s with profiles := Function.update s.profiles p.id (some ex7) })

/-- Numeric value of a digit string. -/
def digitsVal (cs : List Char) : Nat :=
  cs.foldl (fun acc c => 10 * acc + (c.toNat - 48)) 0

/-- Modelled from Go's stdlib `time.Parse(time.RFC3339, ·)` as used by
`parseISO` in store.go: a well-formed UTC timestamp `YYYY-MM-DDTHH:MM:SSZ` is
mapped to the order-preserving key `yyyymmddhhmmss`; every other string
(including the empty string, matching the zero-on-failure contract of
store.go's `parseISO`) maps to the zero instant `0`.  Every universally
quantified theorem below is independent of the concrete parse function; it
only has to be order-preserving on the timestamps a witness uses. -/
def parseISO (s : String) : Nat :=
  match s.toList with
  | [y1, y2, y3, y4, '-', o1, o2, '-', d1, d2, 'T',
     h1, h2, ':', i1, i2, ':', c1, c2, 'Z'] =>
    if ([y1, y2, y3, y4, o1, o2, d1, d2, h1, h2, i1, i2, c1, c2].all Char.isDigit) then
      digitsVal [y1, y2, y3, y4, o1, o2, d1, d2, h1, h2, i1, i2, c1, c2]
    else 0
  | _ => 0

/-- The `less` closure of the `ListMessages` sort: `createdAt_i` strictly
before `createdAt_j`. -/
def msgAscLess (a b : Message) : Bool :=
  decide (parseISO a.createdAt < parseISO b.createdAt)

/-- `Store.ListMessages` (store.go lines 640-666): keep the conversation's
non-deleted messages, apply the exclusive `after`/`before` bounds (skipped when
the bound is the zero instant), sort ascending by creation time, and truncate
to the first `limit` messages when `0 < limit < length`. -/
def listMessages (s : Store) (convID : String) (after before : Nat) (limit : Int) :
    List Message :=
  let msgs := (s.messages.map Prod.snd).filter fun m =>
    (m.conversationId == convID) && !m.deleted &&
    ((after == 0) || decide (after < parseISO m.createdAt)) &&
    ((before == 0) || decide (parseISO m.createdAt < before))
  let sorted := msgs.mergeSort fun a b => !(msgAscLess b a)
  if 0 < limit ∧ limit < (sorted.length : Int) then sorted.take limit.toNat else sorted

/-- The `less` closure of the `ListBoardsFor` sort: `createdAt_i > createdAt_j`. -/
def boardDescLess (a b : Board) : Bool :=
  decide (b.createdAt < a.createdAt)

/-- `Store.ListBoardsFor` (store.go lines 542-563): drop soft-deleted boards
and private boards not owned by the viewer, then sort by `createdAt`
descending. -/
def listBoardsFor (s : Store) (uid : String) : List Board :=
  let out := (s.boards.map Prod.snd).filter fun b =>
    !b.deleted && !(b.isPrivate && b.ownerID != uid)
  out.mergeSort fun a b => !(boardDescLess b a)

/-- `Store.GetBoard` (store.go lines 565-570): plain map lookup, no
visibility gating. -/
def getBoard (s : Store) (id : String) : Option Board :=
  s.boards.lookup id

/-- The `GET /boards/{id}` read path (httpx/boards.go): 404 when the board is
missing or soft-deleted, 403 when it is private and the viewer is not the
owner, otherwise 200 with the board. -/
def boardGetResponse (s : Store) (boardID uid : String) : Nat × Option Board :=
  match getBoard s boardID with
  | none => (404, none)
  | some b =>
    if b.deleted then (404, none)
    else if b.isPrivate ∧ b.ownerID ≠ uid then (403, none)
    else (200, some b)

/-- `normalizeTag` (store.go): `strings.TrimSpace(strings.ToLower(t))`. -/
def normalizeTag (t : String) : String := t.toLower.trim

/-- `Store.GetTags` (store.go): the user's tag list (a Go nil slice for an
unknown user reads as the empty list). -/
def getTags (s : Store) (uid : String) : List String := s.tags uid

/-- `Store.AddTag` (store.go lines 342-358): normalize; ignore an empty
result; ignore a duplicate; otherwise append. -/
def addTag (s : Store) (uid tag : String) : List String × Store :=
  let t := normalizeTag tag
  if t = "" then (getTags s uid, s)
  else
    let cur := s.tags uid
    if cur.contains t then (cur, s)
    else
      let cur' := cur ++ [t]
      (cur', { s with tags := Function.update s.tags uid cur' })

/-- `Store.RemoveTag` (store.go lines 360-373): filter the normalized tag out
of the user's list. -/
def removeTag (s : Store) (uid tag : String) : List String × Store :=
  let t := normalizeTag tag
  let out := (s.tags uid).filter fun x => x ≠ t
  (out, { s with tags := Function.update s.tags uid out })

/-- `Store.Follow` (store.go lines 389-401): silently ignore empty ids and
self-follows; otherwise add the target to the user's follow set. -/
def follow (s : Store) (uid target : String) : Store :=
  if uid = "" ∨ target = "" ∨ uid = target then s
  else { s with friends := Function.update s.friends uid (insert target (s.friends uid)) }

/-- `Store.Unfollow` (store.go lines 403-414): silently ignore empty ids;
otherwise remove the target from the user's follow set (a missing set is the
empty set, from which removal is a no-op). -/
def unfollow (s : Store) (uid target : String) : Store :=
  if uid = "" ∨ target = "" then s
  else { s with friends := Function.update s.friends uid ((s.friends uid).erase target) }

/-- The invariant of C9: tag lists are duplicate-free and contain no empty
string; follow sets contain no empty string and no self-edge. -/
def StoreInv (s : Store) : Prop :=
  (∀ u, (s.tags u).Nodup ∧ "" ∉ s.tags u) ∧
  (∀ u, "" ∉ s.friends u ∧ u ∉ s.friends u)

/-- Stores reachable from the empty store by the four tag/follow operations
named by C9. -/
inductive ReachableTF : Store → Prop
  | empty : ReachableTF emptyStore
  | addTag (s : Store) (u t : String) : ReachableTF s → ReachableTF (addTag s u t).2
  | removeTag (s : Store) (u t : String) : ReachableTF s → ReachableTF (removeTag s u t).2
  | follow (s : Store) (u t : String) : ReachableTF s → ReachableTF (follow s u t)
  | unfollow (s : Store) (u t : String) : ReachableTF s → ReachableTF (unfollow s u t)

/-- Go `append(acc, x)` on a possibly-nil slice: the result is always a
non-nil slice. -/
def goAppend {α : Type} (acc : Option (List α)) (x : α) : Option (List α) :=
  some (acc.getD [] ++ [x])

/-- `Store.UserPosts` (store.go lines 319-330): `var out []models.Post`
starts as the NIL slice; matching posts are decorated and appended; the
`createdAt desc` sort leaves a nil slice nil. -/
def userPosts (s : Store) (uid viewerUID : String) : Option (List Post) :=
  let out := s.posts.foldl
    (fun acc p => if p.author.id = uid then goAppend acc (decorate s p viewerUID) else acc)
    none
  out.map fun l => l.mergeSort fun a b => !(createdDescLess b a)

/-- `Store.ListByAuthors` (store.go lines 452-496): trimmed non-empty author
set, normalized non-empty tag set, filter + decorate into an accumulator that
starts as `make([]models.Post, 0)` — an EMPTY, non-nil slice — then sort by
`createdAt desc`. -/
def listByAuthors (s : Store) (authors tags : List String) (viewerUID : String) :
    Option (List Post) :=
  let authorSet := (authors.map String.trim).filter fun a => a ≠ ""
  let tagSet := (tags.map fun t => t.trim.toLower).filter fun t => t ≠ ""
  let out := s.posts.foldl
    (fun acc p =>
      if authorSet.contains p.author.id then
        if tagSet.isEmpty || p.tags.any (fun pt => tagSet.contains pt.toLower) then
          goAppend acc (decorate s p viewerUID)
        else acc
      else acc)
    (some [])
  out.map fun l => l.mergeSort fun a b => !(createdDescLess b a)

/-- `Store.ListByBoard` (store.go lines 499-537): `return nil` on an empty
board id; otherwise the same empty-non-nil accumulator shape as
`ListByAuthors`, filtered by the post's `boardId`. -/
def listByBoard (s : Store) (boardID : String) (tags : List String) (viewerUID : String) :
    Option (List Post) :=
  if boardID = "" then none
  else
    let tagSet := (tags.map fun t => t.trim.toLower).filter fun t => t ≠ ""
    let out := s.posts.foldl
      (fun acc p =>
        if p.boardId = boardID then
          if tagSet.isEmpty || p.tags.any (fun pt => tagSet.contains pt.toLower) then
            goAppend acc (decorate s p viewerUID)
          else acc
        else acc)
      (some [])
    out.map fun l => l.mergeSort fun a b => !(createdDescLess b a)

/-- A stored post in the heap-aware model: identical to `Post` except that
the comments field is the Go slice header, a reference into the comments
heap.  Copying the post (`cp := p`) copies the reference, not the array. -/
structure PostH where
  id : String
  author : User
  text : String
  createdAt : String
  likeCount : Int
  likedByMe : Bool
  commentsRef : Nat
  tags : List String
  imageUrl : Option String
  boardId : String
  deriving DecidableEq, Repr

/-- The store in the heap-aware model (only the collections `Decorate`
touches), with the comment arrays factored into an explicit heap so that the
sharing between a stored post and its by-value copies is visible. -/
structure StoreH where
  posts : List PostH
  profiles : String → Option Profile
  postLikes : String → Finset String
  commentsHeap : Nat → List Comment

/-- `Store.Decorate` in the heap-aware model.  The Go loop
`cp.Comments[i].Author.Name = s.DisplayName(cp.Comments[i].Author.ID)` writes
through the slice header shared with the stored post, so next to producing the
decorated value it updates the comments heap at the post's reference (each
iteration reads only the author id of slot `i`, which no earlier write
touched, so the in-place update is `resolveComments`). -/
def decorateH (s : StoreH) (p : PostH) (viewerUID : String) : PostH × StoreH :=
  let cp :=
    if p.author.id ≠ "" then
      { p with author := { p.author with name := displayNameOf s.profiles p.author.id } }
    else p
  let newHeap := Function.update s.commentsHeap cp.commentsRef
    (resolveComments s.profiles (s.commentsHeap cp.commentsRef))
  let s' := { s with commentsHeap := newHeap }
  let set := s.postLikes cp.id
  ({ cp with likeCount := (set.card : Int), likedByMe := decide (viewerUID ∈ set) }, s')

end SocialDemo

namespace SocialDemo

/-- The non-strict order in which `sort.Slice` with `hotLess` leaves the list:
`a` may precede `b` iff `b` does not strictly beat `a`. -/
lemma hotLe_iff (a b : Post) :
    (!(hotLess b a)) = true ↔
      b.likeCount < a.likeCount ∨
        (a.likeCount = b.likeCount ∧ b.createdAt ≤ a.createdAt) := by
  simp only [hotLess, Bool.not_eq_true']
  by_cases h : b.likeCount = a.likeCount
  · simp [h, not_lt]
  · simp [h, not_lt]
    constructor
    · intro hle
      exact Or.inl (lt_of_le_of_ne hle h)
    · rintro (hlt | ⟨heq, _⟩)
      · exact le_of_lt hlt
      · exact absurd heq.symm h

lemma hotLe_trans (a b c : Post) (hab : (!(hotLess b a)) = true)
    (hbc : (!(hotLess c b)) = true) : (!(hotLess c a)) = true := by
  rw [hotLe_iff] at hab hbc ⊢
  rcases hab with h1 | ⟨e1, s1⟩ <;> rcases hbc with h2 | ⟨e2, s2⟩
  · exact Or.inl (h2.trans h1)
  · exact Or.inl (lt_of_le_of_lt (le_of_eq e2.symm) h1)
  · exact Or.inl (lt_of_lt_of_le h2 (le_of_eq e1.symm))
  · exact Or.inr ⟨e1.trans e2, s2.trans s1⟩

lemma hotLe_total (a b : Post) :
    ((!(hotLess b a)) || (!(hotLess a b))) = true := by
  rw [Bool.or_eq_true, hotLe_iff, hotLe_iff]
  rcases lt_trichotomy a.likeCount b.likeCount with h | h | h
  · exact Or.inr (Or.inl h)
  · rcases le_total a.createdAt b.createdAt with hs | hs
    · exact Or.inr (Or.inr ⟨h.symm, hs⟩)
    · exact Or.inl (Or.inr ⟨h, hs⟩)
  · exact Or.inl (Or.inl h)

lemma createdDescLe_iff (a b : Post) :
    (!(createdDescLess b a)) = true ↔ b.createdAt ≤ a.createdAt := by
  simp [createdDescLess, not_lt]

lemma createdDescLe_trans (a b c : Post) (hab : (!(createdDescLess b a)) = true)
    (hbc : (!(createdDescLess c b)) = true) : (!(createdDescLess c a)) = true := by
  rw [createdDescLe_iff] at hab hbc ⊢
  exact hbc.trans hab

lemma createdDescLe_total (a b : Post) :
    ((!(createdDescLess b a)) || (!(createdDescLess a b))) = true := by
  rw [Bool.or_eq_true, createdDescLe_iff, createdDescLe_iff]
  exact le_total b.createdAt a.createdAt

/-- C2: `List("hot", tags, viewer)` is sorted with `likeCount` non-increasing
and, among equal `likeCount`, `createdAt` non-increasing; for every other tab
value the result is sorted purely by `createdAt` descending. -/
theorem listPosts_sorted (s : Store) (tab : String) (tags : List String) (v : String) :
    (tab = "hot" →
      (listPosts s tab tags v).Pairwise fun a b =>
        b.likeCount ≤ a.likeCount ∧
          (a.likeCount = b.likeCount → b.createdAt ≤ a.createdAt)) ∧
    (tab ≠ "hot" →
      (listPosts s tab tags v).Pairwise fun a b => b.createdAt ≤ a.createdAt) := by
  constructor
  · intro h
    rw [listPosts]
    simp only [h, if_pos rfl]
    refine (List.sorted_mergeSort hotLe_trans hotLe_total _).imp ?_
    intro a b hab
    rw [hotLe_iff] at hab
    rcases hab with hlt | ⟨heq, hle⟩
    · exact ⟨le_of_lt hlt, fun he => absurd (he ▸ hlt) (lt_irrefl _)⟩
    · exact ⟨le_of_eq heq.symm, fun _ => hle⟩
  · intro h
    rw [listPosts]
    simp only [if_neg h]
    refine (List.sorted_mergeSort createdDescLe_trans createdDescLe_total _).imp ?_
    intro a b hab
    exact (createdDescLe_iff a b).mp hab

/-- After an upsert with a non-empty id the profile is stored and equals the
returned value. -/
lemma upsertProfile_stores (s : Store) (p : Profile) (h : p.id ≠ "") :
    (upsertProfile s p).2.profiles p.id = some (upsertProfile s p).1 := by
  unfold upsertProfile
  rw [if_neg h]
  cases hex : s.profiles p.id <;> simp

/-- Closed form of the merge branch of `UpsertProfile`. -/
lemma upsertProfile_merge_eq (s : Store) (p ex : Profile)
    (hne : p.id ≠ "") (hex : s.profiles p.id = some ex) :
    (upsertProfile s p).1 =
      { id := ex.id
        name := if p.name ≠ "" then p.name else ex.name
        nickname := if p.nickname.isSome then p.nickname else ex.nickname
        avatarUrl := if p.avatarUrl.isSome then p.avatarUrl else ex.avatarUrl
        instagram := if p.instagram.isSome then p.instagram else ex.instagram
        facebook := if p.facebook.isSome then p.facebook else ex.facebook
        lineId := if p.lineId.isSome then p.lineId else ex.lineId
        birthday := ex.birthday
        showInstagram := p.showInstagram
        showFacebook := p.showFacebook
        showLine := p.showLine } := by
  unfold upsertProfile
  rw [if_neg hne, hex]
  simp only
  split_ifs <;> rfl

/-- Field-wise behaviour of the merge branch of `UpsertProfile`. -/
lemma upsertProfile_merge_fields (s : Store) (p ex : Profile)
    (hne : p.id ≠ "") (hex : s.profiles p.id = some ex) :
    (p.name = "" → ((upsertProfile s p).1).name = ex.name) ∧
    (p.nickname = none → ((upsertProfile s p).1).nickname = ex.nickname) ∧
    (p.avatarUrl = none → ((upsertProfile s p).1).avatarUrl = ex.avatarUrl) ∧
    (p.instagram = none → ((upsertProfile s p).1).instagram = ex.instagram) ∧
    (p.facebook = none → ((upsertProfile s p).1).facebook = ex.facebook) ∧
    (p.lineId = none → ((upsertProfile s p).1).lineId = ex.lineId) ∧
    ((upsertProfile s p).1).showInstagram = p.showInstagram ∧
    ((upsertProfile s p).1).showFacebook = p.showFacebook ∧
    ((upsertProfile s p).1).showLine = p.showLine := by
  rw [upsertProfile_merge_eq s p ex hne hex]
  refine ⟨fun h => ?_, fun h => ?_, fun h => ?_, fun h => ?_, fun h => ?_, fun h => ?_,
    rfl, rfl, rfl⟩ <;> simp [h]

/-- C4: on an existing profile, `UpsertProfile` merges field-wise — a nil
optional pointer field and an empty incoming name leave the stored value
intact while the three visibility booleans are always overwritten — and in
particular upserting once and then again with `nickname` absent yields the
second call's `showInstagram` with the first call's stored nickname
preserved. -/
theorem upsertProfile_merge_contract :
    (∀ (s : Store) (p ex : Profile), p.id ≠ "" → s.profiles p.id = some ex →
      ((upsertProfile s p).2.profiles p.id = some (upsertProfile s p).1) ∧
      (p.name = "" → ((upsertProfile s p).1).name = ex.name) ∧
      (p.nickname = none → ((upsertProfile s p).1).nickname = ex.nickname) ∧
      (p.avatarUrl = none → ((upsertProfile s p).1).avatarUrl = ex.avatarUrl) ∧
      (p.instagram = none → ((upsertProfile s p).1).instagram = ex.instagram) ∧
      (p.facebook = none → ((upsertProfile s p).1).facebook = ex.facebook) ∧
      (p.lineId = none → ((upsertProfile s p).1).lineId = ex.lineId) ∧
      ((upsertProfile s p).1).showInstagram = p.showInstagram ∧
      ((upsertProfile s p).1).showFacebook = p.showFacebook ∧
      ((upsertProfile s p).1).showLine = p.showLine) ∧
    (∀ (s : Store) (q1 q2 ex1 : Profile), q1.id ≠ "" → q2.id = q1.id →
      q2.nickname = none →
      (upsertProfile s q1).2.profiles q1.id = some ex1 →
      ((upsertProfile (upsertProfile s q1).2 q2).1).showInstagram = q2.showInstagram ∧
      ((upsertProfile (upsertProfile s q1).2 q2).1).nickname = ex1.nickname) := by
  constructor
  · intro s p ex hne hex
    exact ⟨upsertProfile_stores s p hne, upsertProfile_merge_fields s p ex hne hex⟩
  · intro s q1 q2 ex1 h1 h12 hnick hex1
    have h2 : q2.id ≠ "" := by rw [h12]; exact h1
    have hex2 : (upsertProfile s q1).2.profiles q2.id = some ex1 := by
      rw [h12]; exact hex1
    have hm := upsertProfile_merge_fields (upsertProfile s q1).2 q2 ex1 h2 hex2
    exact ⟨hm.2.2.2.2.2.2.1, hm.2.1 hnick⟩

/-- Closed instance of C4: insert Alice's profile with a nickname and
`showInstagram = true`, then upsert the same id with an absent nickname and
`showInstagram = false`; the result shows `showInstagram = false` with the
nickname preserved. -/
theorem upsertProfile_merge_contract_witness :
    ((upsertProfile
        (upsertProfile emptyStore
          ⟨"u1", "Alice", some "Ally", none, none, none, none, "", true, false, false⟩).2
        ⟨"u1", "", none, none, none, none, none, "", false, false, false⟩).1).showInstagram
        = false ∧
    ((upsertProfile
        (upsertProfile emptyStore
          ⟨"u1", "Alice", some "Ally", none, none, none, none, "", true, false, false⟩).2
        ⟨"u1", "", none, none, none, none, none, "", false, false, false⟩).1).nickname
        = some "Ally" := by
  have h := upsertProfile_merge_contract.2 emptyStore
    ⟨"u1", "Alice", some "Ally", none, none, none, none, "", true, false, false⟩
    ⟨"u1", "", none, none, none, none, none, "", false, false, false⟩
    ⟨"u1", "Alice", some "Ally", none, none, none, none, "", true, false, false⟩
    (by decide) rfl rfl rfl
  exact ⟨h.1, h.2⟩

/-- C10: `UpsertProfile` on a profile whose id is the empty string is a
complete no-op: it returns the profile unchanged and leaves the store —
profiles collection included — untouched. -/
theorem upsertProfile_emptyId_noop (s : Store) (p : Profile) (h : p.id = "") :
    upsertProfile s p = (p, s) := by
  unfold upsertProfile
  rw [if_pos h]

/-- Closed instance of C10. -/
theorem upsertProfile_emptyId_noop_witness :
    upsertProfile emptyStore
        ⟨"", "n", some "x", none, none, none, none, "", true, false, true⟩ =
      (⟨"", "n", some "x", none, none, none, none, "", true, false, true⟩, emptyStore) :=
  upsertProfile_emptyId_noop emptyStore _ rfl

/-- Flipping a membership twice restores the set. -/
lemma toggleSet_toggleSet (set : Finset String) (u : String) :
    toggleSet (toggleSet set u) u = set := by
  unfold toggleSet
  by_cases h : u ∈ set
  · rw [if_pos h, if_neg (Finset.not_mem_erase u set), Finset.insert_erase h]
  · rw [if_neg h, if_pos (Finset.mem_insert_self u set), Finset.erase_insert h]

lemma togglePostVal_id (p : Post) (st : Finset String) (u : String) :
    (togglePostVal p st u).id = p.id := rfl

/-- `toggleAux` on a list whose first id-match is `p`. -/
lemma toggleAux_found (L : String → Finset String) (P U : String)
    (pre post : List Post) (p : Post)
    (hpre : ∀ q ∈ pre, q.id ≠ P) (hp : p.id = P) :
    toggleAux L P U (pre ++ p :: post) =
      some (pre ++ togglePostVal p (toggleSet (L P) U) U :: post,
            togglePostVal p (toggleSet (L P) U) U, toggleSet (L P) U) := by
  induction pre with
  | nil => simp [toggleAux, hp]
  | cons q rest ih =>
    have hq : q.id ≠ P := hpre q (List.mem_cons_self q rest)
    have ih' := ih fun r hr => hpre r (List.mem_cons_of_mem q hr)
    simp [toggleAux, hq, ih']

/-- `ToggleLike` on a store whose post list contains a first id-match. -/
lemma toggleLike_found (s : Store) (P U : String)
    (pre post : List Post) (p : Post)
    (hs : s.posts = pre ++ p :: post) (hpre : ∀ q ∈ pre, q.id ≠ P) (hp : p.id = P) :
    toggleLike s P U =
      ((togglePostVal p (toggleSet (s.postLikes P) U) U, true),
       { s with posts := pre ++ togglePostVal p (toggleSet (s.postLikes P) U) U :: post,
                postLikes := Function.update s.postLikes P (toggleSet (s.postLikes P) U) }) := by
  unfold toggleLike
  rw [hs, toggleAux_found s.postLikes P U pre post p hpre hp]

/-- C3 (amended): toggling a like twice for the same `(post, user)` pair
restores the like-set exactly and writes the like-set-derived `likeCount` /
`likedByMe` onto the stored post; hence whenever the stored fields agreed with
the like-set before the first call — which every decorated read and every
toggle write-back guarantees — the entire store returns to its original
state.  (As literally stated the claim fails: a stale stored `likeCount` is
replaced by the derived value, not restored; see the counterexample.) -/
theorem toggleLike_twice_restores (s : Store) (P U : String)
    (pre post : List Post) (p : Post)
    (hs : s.posts = pre ++ p :: post) (hpre : ∀ q ∈ pre, q.id ≠ P) (hp : p.id = P) :
    (toggleLike (toggleLike s P U).2 P U).2.postLikes = s.postLikes ∧
    (toggleLike (toggleLike s P U).2 P U).2.posts =
      pre ++ togglePostVal p (s.postLikes P) U :: post ∧
    (p.likeCount = ((s.postLikes P).card : Int) →
      p.likedByMe = decide (U ∈ s.postLikes P) →
      (toggleLike (toggleLike s P U).2 P U).2 = s) ∧
    (toggleLike (toggleLike s P U).2 P U).2.tags = s.tags ∧
    (toggleLike (toggleLike s P U).2 P U).2.friends = s.friends ∧
    (toggleLike (toggleLike s P U).2 P U).2.profiles = s.profiles ∧
    (toggleLike (toggleLike s P U).2 P U).2.boards = s.boards ∧
    (toggleLike (toggleLike s P U).2 P U).2.messages = s.messages := by
  have h1 := toggleLike_found s P U pre post p hs hpre hp
  have hs1posts : (toggleLike s P U).2.posts =
      pre ++ togglePostVal p (toggleSet (s.postLikes P) U) U :: post := by
    rw [h1]
  have hp1 : (togglePostVal p (toggleSet (s.postLikes P) U) U).id = P := by
    rw [togglePostVal_id]; exact hp
  have h2 := toggleLike_found (toggleLike s P U).2 P U pre post
    (togglePostVal p (toggleSet (s.postLikes P) U) U) hs1posts hpre hp1
  have hlikes1 : (toggleLike s P U).2.postLikes P = toggleSet (s.postLikes P) U := by
    rw [h1]; exact Function.update_same P _ s.postLikes
  have hset2 : toggleSet ((toggleLike s P U).2.postLikes P) U = s.postLikes P := by
    rw [hlikes1, toggleSet_toggleSet]
  have hpost2 : togglePostVal (togglePostVal p (toggleSet (s.postLikes P) U) U)
      (toggleSet ((toggleLike s P U).2.postLikes P) U) U =
      togglePostVal p (s.postLikes P) U := by
    rw [hset2]; rfl
  have hlikesEq : Function.update (toggleLike s P U).2.postLikes P
      (toggleSet ((toggleLike s P U).2.postLikes P) U) = s.postLikes := by
    rw [hset2, h1]
    rw [Function.update_idem]
    exact Function.update_eq_self P s.postLikes
  refine ⟨?_, ?_, ?_, ?_, ?_, ?_, ?_, ?_⟩
  · rw [h2]; exact hlikesEq
  · rw [h2]; rw [hpost2]
  · intro hlc hlb
    rw [h2]
    have hpv : togglePostVal (togglePostVal p (toggleSet (s.postLikes P) U) U)
        (toggleSet ((toggleLike s P U).2.postLikes P) U) U = p := by
      rw [hpost2]
      unfold togglePostVal
      rw [← hlc, ← hlb]
    rw [hpv, hlikesEq, h1]
    rw [← hs]
  · rw [h2, h1]
  · rw [h2, h1]
  · rw [h2, h1]
  · rw [h2, h1]
  · rw [h2, h1]

/-- C3 as literally stated is false: create a post whose stored `likeCount`
is a stale `1` while its like-set is empty; after toggling the same user's
like twice the like-set is back to empty but the stored `likeCount` is the
derived `0`, not the original `1`. -/
theorem toggleLike_twice_counterexample :
    (toggleLike (toggleLike
        (create emptyStore { defaultPost with id := "p", likeCount := 1 }).2
        "p" "u").2 "p" "u").2.posts.map Post.likeCount = [0] ∧
    (create emptyStore { defaultPost with id := "p", likeCount := 1 }).2.posts.map
        Post.likeCount = [1] := by
  constructor <;> rfl

/-- Closed instance of C3 (amended): on a store whose stored post is
consistent with its (empty) like-set, a double toggle restores the store
exactly. -/
theorem toggleLike_twice_restores_witness :
    (toggleLike (toggleLike (create emptyStore { defaultPost with id := "p" }).2
        "p" "u").2 "p" "u").2 =
      (create emptyStore { defaultPost with id := "p" }).2 :=
  (toggleLike_twice_restores (create emptyStore { defaultPost with id := "p" }).2
      "p" "u" [] [] { defaultPost with id := "p" } rfl (by simp) rfl).2.2.1 rfl rfl

lemma msgAscLe_iff (a b : Message) :
    (!(msgAscLess b a)) = true ↔ parseISO a.createdAt ≤ parseISO b.createdAt := by
  simp [msgAscLess, not_lt]

lemma msgAscLe_trans (a b c : Message) (hab : (!(msgAscLess b a)) = true)
    (hbc : (!(msgAscLess c b)) = true) : (!(msgAscLess c a)) = true := by
  rw [msgAscLe_iff] at hab hbc ⊢
  exact hab.trans hbc

lemma msgAscLe_total (a b : Message) :
    ((!(msgAscLess b a)) || (!(msgAscLess a b))) = true := by
  rw [Bool.or_eq_true, msgAscLe_iff, msgAscLe_iff]
  exact le_total _ _

/-- C5: `ListMessages` returns only the conversation's non-deleted messages
with creation time strictly after `after` (when `after` is non-zero) and
strictly before `before` (when `before` is non-zero), in ascending
chronological order; a positive `limit` truncates to the first (oldest)
`limit` entries of the untruncated result; and on exactly three messages at
`T1 < T2 < T3`, `ListMessages(conv, after=T1, before=T3, limit=1)` returns
exactly the message at `T2`. -/
theorem listMessages_contract :
    (∀ (s : Store) (convID : String) (after before : Nat) (limit : Int),
      ∀ m ∈ listMessages s convID after before limit,
        m.conversationId = convID ∧ m.deleted = false ∧
        (after ≠ 0 → after < parseISO m.createdAt) ∧
        (before ≠ 0 → parseISO m.createdAt < before)) ∧
    (∀ (s : Store) (convID : String) (after before : Nat) (limit : Int),
      (listMessages s convID after before limit).Pairwise
        fun a b => parseISO a.createdAt ≤ parseISO b.createdAt) ∧
    (∀ (s : Store) (convID : String) (after before : Nat) (limit : Int),
      0 < limit →
        listMessages s convID after before limit =
          (listMessages s convID after before 0).take limit.toNat) ∧
    (∀ (s : Store) (convID : String) (m1 m2 m3 : Message),
      s.messages.map Prod.snd = [m1, m2, m3] →
      m1.conversationId = convID → m2.conversationId = convID →
      m3.conversationId = convID →
      m1.deleted = false → m2.deleted = false → m3.deleted = false →
      0 < parseISO m1.createdAt →
      parseISO m1.createdAt < parseISO m2.createdAt →
      parseISO m2.createdAt < parseISO m3.createdAt →
      listMessages s convID (parseISO m1.createdAt) (parseISO m3.createdAt) 1 = [m2]) := by
  have hmem : ∀ (s : Store) (convID : String) (after before : Nat) (limit : Int),
      ∀ m ∈ listMessages s convID after before limit,
        m.conversationId = convID ∧ m.deleted = false ∧
        (after ≠ 0 → after < parseISO m.createdAt) ∧
        (before ≠ 0 → parseISO m.createdAt < before) := by
    intro s convID after before limit m hm
    rw [listMessages] at hm
    have hm' : m ∈ (List.filter (fun m =>
        (m.conversationId == convID) && !m.deleted &&
        ((after == 0) || decide (after < parseISO m.createdAt)) &&
        ((before == 0) || decide (parseISO m.createdAt < before)))
        (s.messages.map Prod.snd)).mergeSort (fun a b => !(msgAscLess b a)) := by
      split at hm
      · exact (List.take_subset _ _) hm
      · exact hm
    rw [List.mem_mergeSort, List.mem_filter] at hm'
    have hpred := hm'.2
    simp only [Bool.and_eq_true, Bool.or_eq_true, beq_iff_eq, Bool.not_eq_true',
      decide_eq_true_eq] at hpred
    refine ⟨hpred.1.1.1, hpred.1.1.2, fun h => ?_, fun h => ?_⟩
    · rcases hpred.1.2 with h0 | hlt
      · exact absurd h0 h
      · exact hlt
    · rcases hpred.2 with h0 | hlt
      · exact absurd h0 h
      · exact hlt
  refine ⟨hmem, ?_, ?_, ?_⟩
  · intro s convID after before limit
    rw [listMessages]
    have hsorted := (List.sorted_mergeSort msgAscLe_trans msgAscLe_total
      (List.filter (fun m =>
        (m.conversationId == convID) && !m.deleted &&
        ((after == 0) || decide (after < parseISO m.createdAt)) &&
        ((before == 0) || decide (parseISO m.createdAt < before)))
        (s.messages.map Prod.snd))).imp
      (fun hab => (msgAscLe_iff _ _).mp hab)
    split
    · exact hsorted.sublist (List.take_sublist _ _)
    · exact hsorted
  · intro s convID after before limit hlim
    rw [listMessages, listMessages]
    simp only [lt_self_iff_false, false_and, if_false]
    split
    · rfl
    · rename_i hcond
      rw [not_and, not_lt] at hcond
      have hlen := hcond hlim
      rw [List.take_of_length_le]
      omega
  · intro s convID m1 m2 m3 hmap h1c h2c h3c h1d h2d h3d hpos h12 h23
    rw [listMessages, hmap]
    have hne1 : (parseISO m1.createdAt == 0) = false := by
      simp; omega
    have hne3 : (parseISO m3.createdAt == 0) = false := by
      simp; omega
    rw [List.filter_cons, List.filter_cons, List.filter_cons, List.filter_nil]
    have e1 : ((m1.conversationId == convID) && !m1.deleted &&
        ((parseISO m1.createdAt == 0) ||
          decide (parseISO m1.createdAt < parseISO m1.createdAt)) &&
        ((parseISO m3.createdAt == 0) ||
          decide (parseISO m1.createdAt < parseISO m3.createdAt))) = false := by
      simp [h1c, h1d, hne1, hne3]
    have e2 : ((m2.conversationId == convID) && !m2.deleted &&
        ((parseISO m1.createdAt == 0) ||
          decide (parseISO m1.createdAt < parseISO m2.createdAt)) &&
        ((parseISO m3.createdAt == 0) ||
          decide (parseISO m2.createdAt < parseISO m3.createdAt))) = true := by
      simp [h2c, h2d, hne1, hne3, h12, h23]
    have e3 : ((m3.conversationId == convID) && !m3.deleted &&
        ((parseISO m1.createdAt == 0) ||
          decide (parseISO m1.createdAt < parseISO m3.createdAt)) &&
        ((parseISO m3.createdAt == 0) ||
          decide (parseISO m3.createdAt < parseISO m3.createdAt))) = false := by
      simp [h3c, h3d, hne1, hne3]
    rw [e1, e2, e3]
    simp

/-- Closed instance of C5: three messages one second apart; the window
`(T1, T3)` with `limit = 1` returns exactly the middle message. -/
theorem listMessages_contract_witness :
    listMessages
      { emptyStore with messages :=
        [("m1", ⟨"m1", "c", "alice", "text", "hi", "", "", "2024-01-01T00:00:01Z", false⟩),
         ("m2", ⟨"m2", "c", "bob", "text", "yo", "", "", "2024-01-01T00:00:02Z", false⟩),
         ("m3", ⟨"m3", "c", "alice", "text", "ok", "", "", "2024-01-01T00:00:03Z", false⟩)] }
      "c" (parseISO "2024-01-01T00:00:01Z") (parseISO "2024-01-01T00:00:03Z") 1 =
      [⟨"m2", "c", "bob", "text", "yo", "", "", "2024-01-01T00:00:02Z", false⟩] :=
  listMessages_contract.2.2.2 _ "c"
    ⟨"m1", "c", "alice", "text", "hi", "", "", "2024-01-01T00:00:01Z", false⟩
    ⟨"m2", "c", "bob", "text", "yo", "", "", "2024-01-01T00:00:02Z", false⟩
    ⟨"m3", "c", "alice", "text", "ok", "", "", "2024-01-01T00:00:03Z", false⟩
    rfl rfl rfl rfl rfl rfl rfl (by decide) (by decide) (by decide)

/-- A fold whose step either keeps the accumulator or Go-appends to it never
turns a non-nil slice into a nil one. -/
lemma foldl_step_ne_none (step : Option (List Post) → Post → Option (List Post))
    (hstep : ∀ acc p, step acc p = acc ∨ ∃ x, step acc p = goAppend acc x) :
    ∀ (l : List Post) (acc : Option (List Post)), acc ≠ none → l.foldl step acc ≠ none := by
  intro l
  induction l with
  | nil => intro acc h; exact h
  | cons p rest ih =>
    intro acc h
    rw [List.foldl_cons]
    apply ih
    rcases hstep acc p with he | ⟨x, he⟩
    · rw [he]; exact h
    · rw [he]; simp [goAppend]

/-- The `UserPosts` accumulator ends nil exactly when it started nil and no
post matched. -/
lemma userPosts_foldl_none (s : Store) (uid v : String) :
    ∀ (l : List Post) (acc : Option (List Post)),
      l.foldl (fun acc p =>
          if p.author.id = uid then goAppend acc (decorate s p v) else acc) acc = none ↔
        (acc = none ∧ ∀ p ∈ l, p.author.id ≠ uid) := by
  intro l
  induction l with
  | nil => intro acc; simp
  | cons p rest ih =>
    intro acc
    rw [List.foldl_cons]
    by_cases h : p.author.id = uid
    · rw [if_pos h, ih]
      simp [goAppend, h]
    · rw [if_neg h, ih]
      simp [h]

/-- C6 as stated is false: `UserPosts` for an author with no posts returns
the nil slice (JSON `null`), and `ListByBoard` with an empty board id
returns nil. -/
theorem listByX_nonNil_counterexample :
    userPosts emptyStore "a" "v" = none ∧ listByBoard emptyStore "" [] "v" = none := by
  constructor <;> rfl

/-- C6 (amended): `ListByAuthors` always returns a non-nil (possibly empty)
collection; `ListByBoard` returns a non-nil collection for every non-empty
board id; but `UserPosts` returns the nil slice precisely when the author has
no posts (and `ListByBoard` returns nil on the empty board id, per the
counterexample). -/
theorem listByX_nonNil :
    (∀ (s : Store) (authors tags : List String) (v : String),
      listByAuthors s authors tags v ≠ none) ∧
    (∀ (s : Store) (boardID : String) (tags : List String) (v : String),
      boardID ≠ "" → listByBoard s boardID tags v ≠ none) ∧
    (∀ (s : Store) (tags : List String) (v : String), listByBoard s "" tags v = none) ∧
    (∀ (s : Store) (uid v : String),
      userPosts s uid v = none ↔ ∀ p ∈ s.posts, p.author.id ≠ uid) := by
  refine ⟨?_, ?_, ?_, ?_⟩
  · intro s authors tags v
    rw [listByAuthors]
    simp only [ne_eq, Option.map_eq_none']
    apply foldl_step_ne_none
    · intro acc p
      split
      · split
        · right; exact ⟨decorate s p v, rfl⟩
        · left; rfl
      · left; rfl
    · simp
  · intro s boardID tags v hbe
    rw [listByBoard, if_neg hbe]
    simp only [ne_eq, Option.map_eq_none']
    apply foldl_step_ne_none
    · intro acc p
      split
      · split
        · right; exact ⟨decorate s p v, rfl⟩
        · left; rfl
      · left; rfl
    · simp
  · intro s tags v
    rw [listByBoard, if_pos rfl]
  · intro s uid v
    rw [userPosts]
    simp only [Option.map_eq_none']
    rw [userPosts_foldl_none s uid v s.posts none]
    simp

/-- Closed instance of C6 (amended). -/
theorem listByX_nonNil_witness :
    listByAuthors emptyStore [] [] "v" ≠ none ∧
    listByBoard emptyStore "b" [] "v" ≠ none ∧
    userPosts emptyStore "a" "v" = none :=
  ⟨listByX_nonNil.1 emptyStore [] [] "v",
   listByX_nonNil.2.1 emptyStore "b" [] "v" (by decide),
   (listByX_nonNil.2.2.2 emptyStore "a" "v").mpr (by simp [emptyStore])⟩

lemma boardDescLe_iff (a b : Board) :
    (!(boardDescLess b a)) = true ↔ b.createdAt ≤ a.createdAt := by
  simp [boardDescLess, not_lt]

lemma boardDescLe_trans (a b c : Board) (hab : (!(boardDescLess b a)) = true)
    (hbc : (!(boardDescLess c b)) = true) : (!(boardDescLess c a)) = true := by
  rw [boardDescLe_iff] at hab hbc ⊢
  exact hbc.trans hab

lemma boardDescLe_total (a b : Board) :
    ((!(boardDescLess b a)) || (!(boardDescLess a b))) = true := by
  rw [Bool.or_eq_true, boardDescLe_iff, boardDescLe_iff]
  exact le_total _ _

/-- C8: soft-deleted boards and private boards not owned by the viewer are
absent from `ListBoardsFor(viewer)`; the result is sorted by `createdAt`
descending; and the board read path (`GET /boards/{id}`) never exposes a
private board to a non-owner. -/
theorem boards_visibility :
    (∀ (s : Store) (uid : String) (b : Board),
      b ∈ s.boards.map Prod.snd →
      (b.deleted = true ∨ (b.isPrivate = true ∧ b.ownerID ≠ uid)) →
      b ∉ listBoardsFor s uid) ∧
    (∀ (s : Store) (uid : String),
      (listBoardsFor s uid).Pairwise fun a b => b.createdAt ≤ a.createdAt) ∧
    (∀ (s : Store) (uid id : String) (b : Board),
      getBoard s id = some b → b.isPrivate = true → b.ownerID ≠ uid →
      (boardGetResponse s id uid).2 = none) := by
  refine ⟨?_, ?_, ?_⟩
  · intro s uid b _ hbad hmem
    rw [listBoardsFor, List.mem_mergeSort, List.mem_filter] at hmem
    have hpred := hmem.2
    simp only [Bool.and_eq_true, Bool.not_eq_true', Bool.and_eq_false_iff,
      Bool.not_eq_false', bne_eq_false_iff_eq] at hpred
    rcases hbad with hdel | ⟨hpriv, howner⟩
    · rw [hpred.1] at hdel
      exact Bool.false_ne_true hdel
    · rcases hpred.2 with hp | ho
      · rw [hpriv] at hp
        exact absurd hp (by decide)
      · exact howner ho
  · intro s uid
    rw [listBoardsFor]
    exact (List.sorted_mergeSort boardDescLe_trans boardDescLe_total _).imp
      fun hab => (boardDescLe_iff _ _).mp hab
  · intro s uid id b hb hpriv howner
    rw [boardGetResponse, hb]
    dsimp only
    by_cases hdel : b.deleted = true
    · rw [if_pos hdel]
    · rw [if_neg hdel, if_pos ⟨hpriv, howner⟩]

/-- Closed instance of C8: a private board owned by `"o"` is invisible to
viewer `"x"` both in the listing and on the read path. -/
theorem boards_visibility_witness :
    (⟨"b1", "n", "", "o", [], false, true, "t1", "t1", false⟩ : Board) ∉
      listBoardsFor { emptyStore with boards :=
        [("b1", ⟨"b1", "n", "", "o", [], false, true, "t1", "t1", false⟩)] } "x" ∧
    (boardGetResponse { emptyStore with boards :=
        [("b1", ⟨"b1", "n", "", "o", [], false, true, "t1", "t1", false⟩)] } "b1" "x").2 =
      none :=
  ⟨boards_visibility.1 _ "x" _ (by simp) (Or.inr ⟨rfl, by decide⟩),
   boards_visibility.2.2 _ "x" "b1" _ rfl rfl (by decide)⟩

/-- The empty store satisfies the tag/follow invariant. -/
lemma storeInv_empty : StoreInv emptyStore := by
  constructor <;> intro u <;> simp [emptyStore]

lemma storeInv_addTag (s : Store) (u t : String) (h : StoreInv s) :
    StoreInv (addTag s u t).2 := by
  unfold addTag
  dsimp only
  split
  · exact h
  · rename_i hne
    split
    · exact h
    · rename_i hmem
      refine ⟨fun u' => ?_, h.2⟩
      dsimp only
      by_cases hu : u' = u
      · subst hu
        rw [Function.update_same]
        have hnotin : normalizeTag t ∉ s.tags u' := by
          intro hc
          exact hmem (List.elem_iff.mpr hc)
        refine ⟨List.Nodup.append (h.1 u').1 (List.nodup_singleton _) ?_, ?_⟩
        · intro x hx hx'
          rw [List.mem_singleton] at hx'
          subst hx'
          exact hnotin hx
        · rw [List.mem_append, List.mem_singleton]
          rintro (hc | hc)
          · exact (h.1 u').2 hc
          · exact hne hc.symm
      · rw [Function.update_noteq hu]
        exact h.1 u'

lemma storeInv_removeTag (s : Store) (u t : String) (h : StoreInv s) :
    StoreInv (removeTag s u t).2 := by
  unfold removeTag
  dsimp only
  refine ⟨fun u' => ?_, h.2⟩
  dsimp only
  by_cases hu : u' = u
  · subst hu
    rw [Function.update_same]
    refine ⟨(h.1 u').1.filter _, fun hc => (h.1 u').2 (List.mem_of_mem_filter hc)⟩
  · rw [Function.update_noteq hu]
    exact h.1 u'

lemma storeInv_follow (s : Store) (u t : String) (h : StoreInv s) :
    StoreInv (follow s u t) := by
  unfold follow
  split
  · exact h
  · rename_i hguard
    push_neg at hguard
    refine ⟨h.1, fun u' => ?_⟩
    dsimp only
    by_cases hu : u' = u
    · subst hu
      rw [Function.update_same]
      rw [Finset.mem_insert, Finset.mem_insert]
      constructor
      · rintro (hc | hc)
        · exact hguard.2.1 hc.symm
        · exact (h.2 u').1 hc
      · rintro (hc | hc)
        · exact hguard.2.2 hc
        · exact (h.2 u').2 hc
    · rw [Function.update_noteq hu]
      exact h.2 u'

lemma storeInv_unfollow (s : Store) (u t : String) (h : StoreInv s) :
    StoreInv (unfollow s u t) := by
  unfold unfollow
  split
  · exact h
  · refine ⟨h.1, fun u' => ?_⟩
    dsimp only
    by_cases hu : u' = u
    · subst hu
      rw [Function.update_same]
      exact ⟨fun hc => (h.2 u').1 (Finset.mem_of_mem_erase hc),
             fun hc => (h.2 u').2 (Finset.mem_of_mem_erase hc)⟩
    · rw [Function.update_noteq hu]
      exact h.2 u'

/-- C9: every store reachable from the empty store by `AddTag` / `RemoveTag` /
`Follow` / `Unfollow` has duplicate-free tag lists with no empty-string
entries, and follow sets with no empty-string entries and no self-edges. -/
theorem tagFollow_invariant (s : Store) (h : ReachableTF s) : StoreInv s := by
  induction h with
  | empty => exact storeInv_empty
  | addTag s u t _ ih => exact storeInv_addTag s u t ih
  | removeTag s u t _ ih => exact storeInv_removeTag s u t ih
  | follow s u t _ ih => exact storeInv_follow s u t ih
  | unfollow s u t _ ih => exact storeInv_unfollow s u t ih

/-- Closed instance of C9: a concrete reachable store satisfies the
invariant. -/
theorem tagFollow_invariant_witness :
    StoreInv (follow (addTag (addTag emptyStore "u" " Design ").2 "u" "design").2 "u" "w") :=
  tagFollow_invariant _
    (ReachableTF.follow _ "u" "w"
      (ReachableTF.addTag _ "u" "design"
        (ReachableTF.addTag emptyStore "u" " Design " ReachableTF.empty)))

/-- C7 as stated is false: `cp := p` copies the slice header, not the comment
array, so the loop that resolves comment author names writes through to the
stored post.  Concretely: a stored post whose single comment carries the stale
author name `"old"` has that name overwritten with the profile nickname
`"New"` in the store itself by a single decoration call. -/
theorem decorateH_mutates_counterexample :
    (decorateH
        ⟨[⟨"p", ⟨"u2", "Bob", none⟩, "", "t", 0, false, 0, [], none, ""⟩],
         Function.update (fun _ => none) "u"
           (some ⟨"u", "Ann", some "New", none, none, none, none, "", false, false, false⟩),
         fun _ => ∅,
         fun _ => [⟨"c1", ⟨"u", "old", none⟩, "hi", "t"⟩]⟩
        ⟨"p", ⟨"u2", "Bob", none⟩, "", "t", 0, false, 0, [], none, ""⟩
        "v").2.commentsHeap 0 =
      [⟨"c1", ⟨"u", "New", none⟩, "hi", "t"⟩] ∧
    (decorateH
        ⟨[⟨"p", ⟨"u2", "Bob", none⟩, "", "t", 0, false, 0, [], none, ""⟩],
         Function.update (fun _ => none) "u"
           (some ⟨"u", "Ann", some "New", none, none, none, none, "", false, false, false⟩),
         fun _ => ∅,
         fun _ => [⟨"c1", ⟨"u", "old", none⟩, "hi", "t"⟩]⟩
        ⟨"p", ⟨"u2", "Bob", none⟩, "", "t", 0, false, 0, [], none, ""⟩
        "v").2 ≠
      ⟨[⟨"p", ⟨"u2", "Bob", none⟩, "", "t", 0, false, 0, [], none, ""⟩],
       Function.update (fun _ => none) "u"
         (some ⟨"u", "Ann", some "New", none, none, none, none, "", false, false, false⟩),
       fun _ => ∅,
       fun _ => [⟨"c1", ⟨"u", "old", none⟩, "hi", "t"⟩]⟩ := by
  constructor
  · decide
  · intro he
    have hc := congrArg (fun st => st.commentsHeap 0) he
    revert hc
    decide

/-- C7 (amended): `Decorate` leaves every store collection unchanged — the
posts list, profiles, like-sets, and every comment array other than the
decorated post's own — but it does write the resolved author display names
into the decorated post's shared comment array. -/
theorem decorateH_frame (s : StoreH) (p : PostH) (v : String) :
    (decorateH s p v).2.posts = s.posts ∧
    (decorateH s p v).2.profiles = s.profiles ∧
    (decorateH s p v).2.postLikes = s.postLikes ∧
    (decorateH s p v).2.commentsHeap p.commentsRef =
      resolveComments s.profiles (s.commentsHeap p.commentsRef) ∧
    (∀ r, r ≠ p.commentsRef → (decorateH s p v).2.commentsHeap r = s.commentsHeap r) := by
  unfold decorateH
  dsimp only
  by_cases h : p.author.id ≠ "" <;> [rw [if_pos h]; rw [if_neg h]] <;>
    exact ⟨rfl, rfl, rfl, Function.update_same _ _ _,
      fun r hr => Function.update_noteq hr _ _⟩

/-- Closed instance of C7 (amended): a decoration call leaves a foreign
comment array (reference 1) untouched. -/
theorem decorateH_frame_witness :
    (decorateH
        ⟨[⟨"p", ⟨"u2", "Bob", none⟩, "", "t", 0, false, 0, [], none, ""⟩],
         fun _ => none, fun _ => ∅,
         fun _ => [⟨"c1", ⟨"u", "old", none⟩, "hi", "t"⟩]⟩
        ⟨"p", ⟨"u2", "Bob", none⟩, "", "t", 0, false, 0, [], none, ""⟩
        "v").2.commentsHeap 1 =
      [⟨"c1", ⟨"u", "old", none⟩, "hi", "t"⟩] :=
  (decorateH_frame _ _ "v").2.2.2.2 1 (by decide)

/-- Closed instance of C2 on a two-post store, for both the "hot" tab and the
default tab. -/
theorem listPosts_sorted_witness :
    ((listPosts { emptyStore with posts :=
        [⟨"p1", defaultUser, "a", "2024-01-01T00:00:01Z", 0, false, [], [], none, ""⟩,
         ⟨"p2", defaultUser, "b", "2024-01-02T00:00:01Z", 0, false, [], [], none, ""⟩] }
        "hot" [] "v").Pairwise fun a b =>
          b.likeCount ≤ a.likeCount ∧
            (a.likeCount = b.likeCount → b.createdAt ≤ a.createdAt)) ∧
    ((listPosts { emptyStore with posts :=
        [⟨"p1", defaultUser, "a", "2024-01-01T00:00:01Z", 0, false, [], [], none, ""⟩,
         ⟨"p2", defaultUser, "b", "2024-01-02T00:00:01Z", 0, false, [], [], none, ""⟩] }
        "" [] "v").Pairwise fun a b => b.createdAt ≤ a.createdAt) :=
  ⟨(listPosts_sorted _ "hot" [] "v").1 rfl,
   (listPosts_sorted _ "" [] "v").2 (by decide)⟩

/-- C1: for every store, post and viewer, `Decorate` returns a post whose
`likeCount` is the cardinality of the post's like-set and whose `likedByMe` is
the viewer's membership in that like-set, regardless of the `likeCount` /
`likedByMe` values stored on the input post. -/
theorem decorate_likeCount_likedByMe (s : Store) (p : Post) (v : String) :
    (decorate s p v).likeCount = ((s.postLikes p.id).card : Int) ∧
    ((decorate s p v).likedByMe = true ↔ v ∈ s.postLikes p.id) := by
  unfold decorate
  by_cases h : p.author.id ≠ "" <;> simp [h]

end SocialDemo
